import Mathlib

/-!
Verification development for the Rail-RNA pipeline driver
(`src/rna/driver/rna_config.py` and `src/util/filemover.py`).

The Python source is shallowly embedded: pure fragments become Lean
functions, Python exceptions become `Except PyErr`, Python `int` becomes
`Nat`/`Int`, Python dictionaries with optional keys become structures with
`Option` fields (`none` = key absent).  Helper modules of the repository
that are not part of the source tree (`dooplicity.tools.path_join`,
`dooplicity.ansibles.Url`) are modelled from the specification and marked
as such in their doc comments.
-/

/-- Python exceptions raised by the embedded code.  A bare `assert` raises
`AssertionError` with an empty message; referencing an undefined name
raises `NameError` carrying the name. -/
inductive PyErr where
  | assertionError (msg : String)
  | runtimeError (msg : String)
  | nameError (nm : String)
deriving Repr, DecidableEq

/-- Decidable equality for embedded results, used to evaluate the
embedding on concrete inputs. -/
instance exceptDecEq {ε α : Type} [DecidableEq ε] [DecidableEq α] :
    DecidableEq (Except ε α) := fun x y =>
  match x, y with
  | .ok a, .ok b =>
      if h : a = b then isTrue (congrArg Except.ok h)
      else isFalse (fun hc => h (by injection hc))
  | .error a, .error b =>
      if h : a = b then isTrue (congrArg Except.error h)
      else isFalse (fun hc => h (by injection hc))
  | .ok _, .error _ => isFalse (fun hc => Except.noConfusion hc)
  | .error _, .ok _ => isFalse (fun hc => Except.noConfusion hc)

/-- The message text carried by an embedded Python exception. -/
def errMessage : PyErr → String
  | .assertionError m => m
  | .runtimeError m => m
  | .nameError n => "name " ++ n ++ " is not defined"

/-- `needle` occurs as a contiguous sublist of `hay`. -/
def hasSub : List Char → List Char → Bool
  | [], needle => needle.isEmpty
  | c :: t, needle => needle.isPrefixOf (c :: t) || hasSub t needle

/-- `needle.toList` occurs as a contiguous sublist of `hay.toList`
(substring containment, used to formalise "the error message names X"). -/
def strContains (hay needle : String) : Bool :=
  hasSub hay.toList needle.toList

/-- Python `sep.join(items)`. -/
def pyJoin (sep : String) : List String → String
  | [] => ""
  | [a] => a
  | a :: b :: rest => a ++ sep ++ pyJoin sep (b :: rest)

/-- Python `str.strip()` (whitespace from both ends), implemented over
the character list so that it evaluates by reduction. -/
def pyStrip (s : String) : String :=
  ⟨((s.data.dropWhile Char.isWhitespace).reverse.dropWhile
      Char.isWhitespace).reverse⟩

/-- Python `s.startswith(pre)`, implemented over the character list. -/
def pyStartsWith (s pre : String) : Bool :=
  pre.data.isPrefixOf s.data

/-- Helper of `splitChar`: accumulates the current field (reversed). -/
def splitCharGo (sep : Char) : List Char → List Char → List String
  | [], acc => [⟨acc.reverse⟩]
  | c :: rest, acc =>
      if c = sep then ⟨acc.reverse⟩ :: splitCharGo sep rest []
      else splitCharGo sep rest (c :: acc)

/-- Python `s.split(sep)` for a one-character separator. -/
def splitChar (sep : Char) (s : String) : List String :=
  splitCharGo sep s.data []

/-- Helper of `pyReplace`, with the input length as structural fuel (each
step consumes at least one character; only used with nonempty needles). -/
def replaceFuel (needle repl : List Char) : Nat → List Char → List Char
  | _, [] => []
  | 0, l => l
  | fuel + 1, c :: rest =>
      if needle.isPrefixOf (c :: rest) ∧ needle ≠ [] then
        repl ++ replaceFuel needle repl fuel
          (List.drop (needle.length - 1) rest)
      else c :: replaceFuel needle repl fuel rest

/-- Python `s.replace(needle, repl)` (all occurrences, left to right). -/
def pyReplace (s needle repl : String) : String :=
  ⟨replaceFuel needle.data repl.data s.data.length s.data⟩

/- Constants of rna_config.py (lines 104-110). -/

def _hadoop_streaming_jar : String :=
  "/home/hadoop/contrib/streaming/hadoop-streaming.jar"

def _multiple_files_jar : String := "/mnt/lib/multiple-files.jar"

def _relevant_elephant_jar : String := "/mnt/lib/relevant-elephant.jar"

def _hadoop_lzo_jar : String :=
  "/home/hadoop/.versions/2.4.0/share/hadoop/common/lib/hadoop-lzo.jar"

def _s3distcp_jar : String := "/home/hadoop/lib/emr-s3distcp-1.0.jar"

def _hdfs_temp_dir : String := "hdfs:///railtemp"

/-- The `HadoopJarStep` sub-dictionary of a compiled step. -/
structure HadoopJarStep where
  jar : String
  args : List String
deriving Repr, DecidableEq

/-- A compiled step dictionary (`rna_config.step`, lines 687-694). -/
structure Step where
  name : String
  action_on_failure : String
  hadoop_jar_step : HadoopJarStep
deriving Repr, DecidableEq

/-- The partition/sort `-D` configuration block emitted by `step` when both
`partition_field_count` and `key_fields` are given
(rna_config.py lines 700-713, after the assert on line 699). -/
def partitionArgs (partition_field_count key_fields : Nat) : List String :=
  ["-D", "stream.num.map.output.key.fields=" ++ toString key_fields,
   "-D", "mapreduce.partition.keypartitioner.options=-k1,"
          ++ toString partition_field_count]
  ++ (if key_fields ≠ partition_field_count then
        ["-D", "mapreduce.job.output.key.comparator.class="
               ++ "org.apache.hadoop.mapred.lib.KeyFieldBasedComparator",
         "-D", "mapreduce.partition.keycomparator.options=-k1,"
               ++ toString partition_field_count
               ++ " -k" ++ toString (partition_field_count + 1)
               ++ "," ++ toString key_fields]
      else [])

/-- The `-archives` block of lines 725-728: present only when an
archives parameter is given. -/
def archBlock : Option String → List String
  | some a => ["-archives", a]
  | none => []

/-- The `-inputformat` block of lines 745-756: the given format, or the
splittable-LZO default. -/
def ifmtBlock : Option String → List String
  | some f => ["-inputformat", f]
  | none =>
      ["-inputformat",
       "com.twitter.elephantbird.mapred.input"
         ++ ".DeprecatedCombineLzoTextInputFormat"]

/-- The full `Args` list assembled by `rna_config.step`
(lines 695-756), given the partition/sort block `pargs`. -/
def stepArgsList (inputs : List String) (output mapper reducer : String)
    (tasks : Nat) (pargs : List String) (archives : Option String)
    (multiple_outputs : Bool) (inputformat : Option String)
    (extra_args : List String) : List String :=
  ["-D", "mapreduce.job.reduces=" ++ toString tasks]
  ++ pargs
  ++ (extra_args.map (fun a => ["-D", a])).flatten
  ++ ["-libjars",
      _relevant_elephant_jar
        ++ (if multiple_outputs then "," ++ _multiple_files_jar
            else "")]
  ++ archBlock archives
  ++ ["-partitioner",
      "org.apache.hadoop.mapred.lib.KeyFieldBasedPartitioner"]
  ++ ["-input", pyJoin "," (inputs.map (fun s => pyStrip s))]
  ++ ["-output", output, "-mapper", mapper, "-reducer", reducer]
  ++ (if multiple_outputs then
        ["-outputformat", "edu.jhu.cs.MultipleOutputFormat"]
      else [])
  ++ ifmtBlock inputformat

/-- `rna_config.step` (lines 663-757): builds the step dictionary for a
stage.  The `assert key_fields >= partition_field_count` on line 699 is
modelled as an `AssertionError`; the in-place `Args[-1] += ...` mutation of
line 723 becomes appending to the `-libjars` value. -/
def step (name : String) (inputs : List String)
    (output mapper reducer action_on_failure jar : String) (tasks : Nat)
    (partition_field_count key_fields : Option Nat)
    (archives : Option String) (multiple_outputs : Bool)
    (inputformat : Option String) (extra_args : List String) :
    Except PyErr Step :=
  let partCheck : Except PyErr (List String) :=
    match partition_field_count, key_fields with
    | some p, some k =>
        if k ≥ p then Except.ok (partitionArgs p k)
        else Except.error (PyErr.assertionError "")
    | _, _ => Except.ok []
  match partCheck with
  | Except.error e => Except.error e
  | Except.ok pargs =>
      Except.ok ⟨name, action_on_failure,
        ⟨jar, stepArgsList inputs output mapper reducer tasks pargs
                archives multiple_outputs inputformat extra_args⟩⟩

/-- Reads the leading run of `-D key=value` pairs from a Hadoop Streaming
argument list: exactly the job configuration a compiled step sets.  In
every list `step` emits, all `-D` pairs precede `-libjars`. -/
def dConf : List String → List String
  | [] => []
  | [_] => []
  | x :: v :: rest => if x = "-D" then v :: dConf rest else []

lemma dConf_cons (v : String) (rest : List String) :
    dConf ("-D" :: v :: rest) = v :: dConf rest := by
  simp [dConf]

lemma dConf_join_pairs (es : List String) (y : String) (t : List String)
    (hy : y ≠ "-D") :
    dConf ((es.map (fun a => ["-D", a])).flatten ++ y :: t) = es := by
  induction es with
  | nil =>
      cases t with
      | nil => simp [dConf, hy]
      | cons b bs => simp [dConf, hy]
  | cons e es ih => simp [dConf, ih]

/-- A protostep: the declarative stage dictionary consumed by
`rna_config.steps` (documented at lines 765-791).  Optional dictionary
keys become `Option` fields (`none` = key absent); the presence-only keys
`no_input_prefix`, `no_output_prefix`, `multiple_outputs` and
`index_output` become `Bool` fields; `min_tasks` and `taskx` may be
present with value `None`, hence `Option (Option Nat)`. -/
structure Protostep where
  name : String
  run : String
  inputs : List String
  no_input_prefix_key : Bool
  output : String
  no_output_prefix_key : Bool
  keys : Option Nat
  part : Option Nat
  min_tasks : Option (Option Nat)
  max_tasks : Option Nat
  taskx : Option (Option Nat)
  inputformat : Option String
  archives : Option String
  multiple_outputs : Bool
  index_output : Bool
  direct_copy : Option Bool
  extra_args : Option (List String)
deriving Repr, DecidableEq

/-- Modelled from the spec: `dooplicity.tools.path_join` is imported on
line 31 of rna_config.py but the dooplicity module is not part of the
source tree.  Per spec §4.3 it prefixes a logical name with a directory;
on the POSIX hosts in scope both the `unix=True` and `unix=False` variants
join with a single slash. -/
def path_join (unix : Bool) (a b : String) : String := a ++ "/" ++ b

/-- Modelled from the spec: `dooplicity.ansibles.Url` (spec §3, §4.1) is
not part of the source tree; classification is syntactic on the scheme.
`urlIsS3` holds for object-store URLs. -/
def urlIsS3 (s : String) : Bool :=
  pyStartsWith s "s3://" || pyStartsWith s "s3n://"

/-- Modelled from the spec: the `suffix` of an object-store URL is the
text after the scheme name and colon (so `"s3://x/y"` has suffix
`"//x/y"`, and `rna_config.steps` turns it into
`hdfs:///railtemp/x/y`). -/
def urlSuffix (s : String) : String :=
  if pyStartsWith s "s3n://" then s.drop 4 else s.drop 3

/-- The identity mapper chosen by `rna_config.steps` (line 815):
`cut -f 2-` on EMR (where CombineFileInputFormat prepends offsets) and
`cat` locally. -/
def identity_mapper (unix : Bool) : String :=
  if unix then "cut -f 2-" else "cat"

/-- The operator command `rna_config.steps` builds for a protostep
(lines 866-869 and 871-874): the Python executable followed by the path
of the step script. -/
def opCommand (unix : Bool) (executable step_dir run : String) : String :=
  (if unix then "pypy" else executable) ++ " " ++ path_join unix step_dir run

/-- The reducer-task-count logic of `rna_config.steps` (lines 832-857),
including the `assert 'taskx' in protostep or 'min_tasks' in protostep`.
`reducer_count` is the declared reducer parallelism R.  (Python would
raise `ZeroDivisionError` on `% 0`; callers always pass R ≥ 1, and the
theorems below assume `0 < reducer_count` where the modulus matters.) -/
def reducer_task_count (ps : Protostep) (reducer_count : Nat) :
    Except PyErr Nat :=
  match ps.taskx, ps.min_tasks with
  | none, none => Except.error (PyErr.assertionError "")
  | some none, _ => Except.ok 1
  | some (some m), _ => Except.ok (reducer_count * m)
  | none, some none => Except.ok reducer_count
  | none, some (some m) =>
      let rtc :=
        if m % reducer_count = 0 then m
        else m + reducer_count - ((m + reducer_count) % reducer_count)
      Except.ok (match ps.max_tasks with
                 | some mx => min rtc mx
                 | none => rtc)

/-- The steps `rna_config.steps` emits for one protostep
(lines 810-942): the two asserts (keys/part consistency, line 811;
`direct_copy`/`multiple_outputs` mutual exclusion, line 813), the output
staging logic, the task count, the mapper/reducer choice, the call to
`step`, and the side-car index / s3distcp-copy steps. -/
def stepsFor (ps : Protostep)
    (action_on_failure jar step_dir : String) (reducer_count : Nat)
    (intermediate_dir : String) (unix no_consistent_view : Bool)
    (executable : String) : Except PyErr (List Step) :=
  if ¬(ps.keys.isSome = ps.part.isSome) then
    Except.error (PyErr.assertionError "")
  else if ps.direct_copy.isSome ∧ ps.multiple_outputs then
    Except.error (PyErr.assertionError "")
  else
    let final_output :=
      if ¬ps.no_output_prefix_key then
        path_join unix intermediate_dir ps.output
      else ps.output
    let staged := _hdfs_temp_dir ++ (urlSuffix final_output).drop 1
    let io1 :=
      if ps.direct_copy.isNone ∧ unix ∧ urlIsS3 final_output
         ∧ no_consistent_view then staged
      else final_output
    let intermediate_output :=
      match ps.direct_copy with
      | some dc => if ¬dc then staged else io1
      | none => io1
    match reducer_task_count ps reducer_count with
    | Except.error e => Except.error e
    | Except.ok rtc =>
        let inputsList :=
          if ¬ps.no_input_prefix_key then
            ps.inputs.map (fun i => path_join unix intermediate_dir i)
          else ps.inputs
        let mapperCmd :=
          if ps.keys.isNone then opCommand unix executable step_dir ps.run
          else identity_mapper unix
        let reducerCmd :=
          if ps.keys.isSome then opCommand unix executable step_dir ps.run
          else "cat"
        let extras :=
          (ps.extra_args.getD []).map
            (fun e => pyReplace e "\x7btask_count\x7d" (toString reducer_count))
        match step ps.name inputsList intermediate_output mapperCmd
            reducerCmd action_on_failure jar rtc ps.part ps.keys
            ps.archives ps.multiple_outputs ps.inputformat extras with
        | Except.error e => Except.error e
        | Except.ok mainStep =>
            let indexSteps : List Step :=
              if unix ∧ ps.index_output then
                [⟨"Index output of \"" ++ ps.name ++ "\"",
                  action_on_failure,
                  ⟨_hadoop_lzo_jar,
                   ["com.hadoop.compression.lzo.DistributedLzoIndexer",
                    intermediate_output]⟩⟩]
              else []
            let distcpStep : Step :=
              ⟨"Copy output of \"" ++ ps.name ++ "\" to S3",
                action_on_failure,
                ⟨_s3distcp_jar,
                 ["--src", intermediate_output, "--dest", final_output,
                  "--deleteOnSuccess"]⟩⟩
            let copySteps1 : List Step :=
              match ps.direct_copy with
              | some dc => if ¬dc then [distcpStep] else []
              | none => []
            let copySteps2 : List Step :=
              if ps.direct_copy.isNone ∧ unix ∧ urlIsS3 final_output
                 ∧ no_consistent_view then [distcpStep]
              else []
            Except.ok (mainStep :: (indexSteps ++ copySteps1 ++ copySteps2))

/-- `rna_config.steps` (lines 760-943): compiles the whole protostep list.
An exception at any protostep aborts the compilation and no step list is
produced. -/
def steps (protosteps : List Protostep)
    (action_on_failure jar step_dir : String) (reducer_count : Nat)
    (intermediate_dir : String) (unix no_consistent_view : Bool)
    (executable : String) : Except PyErr (List Step) :=
  match protosteps with
  | [] => Except.ok []
  | p :: rest =>
      match stepsFor p action_on_failure jar step_dir reducer_count
          intermediate_dir unix no_consistent_view executable with
      | Except.error e => Except.error e
      | Except.ok ss =>
          match steps rest action_on_failure jar step_dir reducer_count
              intermediate_dir unix no_consistent_view executable with
          | Except.error e => Except.error e
          | Except.ok more => Except.ok (ss ++ more)

/- Error messages appended by `RailRnaLocal.__init__`
(rna_config.py lines 1401-1573). -/

/-- Message of lines 1402-1404. -/
def manifest_not_exist_msg (manifest : String) : String :=
  "Manifest file (--manifest) " ++ manifest
    ++ " does not exist. Check the URL and try again."

/-- Message of lines 1429-1436 (`{1}` is the raw line). -/
def invalid_tokens_msg (murl line : String) : String :=
  "The following line from the manifest file " ++ murl
    ++ " has an invalid number of tokens:\n" ++ line

/-- Message of lines 1440-1450 (`{1}` is the stripped line; the pattern
named is `<Group ID>-<BioRep ID>-<TechRep ID>`). -/
def invalid_label_msg (murl line : String) : String :=
  "The following line from the manifest file " ++ murl
    ++ " has an invalid sample label: \n" ++ line
    ++ "\nA valid sample label takes the following form:\n"
    ++ "<Group ID>-<BioRep ID>-<TechRep ID>"

/-- Message of lines 1524-1527. -/
def no_valid_lines_msg (murl : String) : String :=
  "Manifest file (--manifest) " ++ murl ++ " has no valid lines."

/-- Message of lines 1509-1516. -/
def file_not_exist_msg (fname murl : String) : String :=
  "The file " ++ fname ++ " from the manifest file " ++ murl
    ++ " does not exist. Check the URL and try again."

/-- Message of lines 1532-1536. -/
def num_processes_msg (n : Int) : String :=
  "Number of processes (--num-processes) must be an integer >= 1, but "
    ++ toString n ++ " was entered."

/-- Message of lines 1552-1556. -/
def gzip_level_msg (n : Int) : String :=
  "Gzip level (--gzip-level) must be an integer between 1 and 9, but "
    ++ toString n ++ " was entered."

/-- Message of lines 1560-1564 (the cap is displayed with Python `format`;
its rendering is abstracted as a string). -/
def sort_memory_cap_msg (s : String) : String :=
  "Sort memory cap (--sort-memory-cap) must take a value larger than 0, "
    ++ "but " ++ s ++ " was entered."

/-- Message of lines 1568-1572 (note: no trailing period in the source). -/
def max_task_attempts_msg (n : Int) : String :=
  "Max task attempts (--max-task-attempts) must be an integer greater "
    ++ "than 0, but " ++ toString n ++ " was entered"

/-- Number of `-` characters in a string (Python `str.count('-')`). -/
def countDash (s : String) : Nat := s.toList.count (Char.ofNat 45)

/-- The token list of a manifest line: `line.strip().split('\t')`
(line 1422). -/
def tokensOf (line : String) : List String := splitChar (Char.ofNat 9) (pyStrip line)

/-- The manifest-loop body of `RailRnaLocal.__init__` for one line
(lines 1419-1450): returns the errors appended and the files added to
`files_to_check`.  Comment lines and blank lines are skipped; a line with
3 or 5 tab-separated fields has its last field checked for exactly two
`-` characters; any other field count yields the invalid-tokens error and
skips the label check. -/
def processManifestLine (murl line : String) : List String × List String :=
  if pyStartsWith line "#" ∨ pyStrip line = "" then ([], [])
  else
    let tokens := tokensOf line
    let lastTok := tokens.getLastD ""
    if tokens.length = 5 then
      (if countDash lastTok ≠ 2 then [invalid_label_msg murl (pyStrip line)]
       else [],
       [tokens.getD 0 "", tokens.getD 2 ""])
    else if tokens.length = 3 then
      (if countDash lastTok ≠ 2 then [invalid_label_msg murl (pyStrip line)]
       else [],
       [tokens.getD 0 ""])
    else
      ([invalid_tokens_msg murl line], [])

/-- The error-accumulating fragment of `RailRnaLocal.__init__` from the
manifest-existence check through the max-task-attempts check
(rna_config.py lines 1401-1573, the `not parallel` branch), given the
relevant environment: whether the manifest exists, its lines, whether the
preprocess flow checks manifest files (`check_manifest`), and which files
exist.  Numeric arguments model CLI values, which argparse has already
coerced to `int`, so the `isinstance(..., int)` conjuncts hold.  Note the
`if num_processes:` guard on line 1529: a zero value skips the whole
num-processes check (falling back to the CPU count) and appends no
error. -/
def railRnaLocalFragmentErrors (manifest : String) (manifestExists : Bool)
    (manifestLines : List String) (check_manifest : Bool)
    (fileExistsOn : String → Bool) (num_processes : Int)
    (gzip_intermediates : Bool) (gzip_level : Int)
    (sort_memory_cap : Rat) (max_task_attempts : Int) : List String :=
  let manifestPart :=
    if ¬manifestExists then [manifest_not_exist_msg manifest]
    else
      let results := manifestLines.map (processManifestLine manifest)
      let lineErrs := (results.map Prod.fst).flatten
      let files := (results.map Prod.snd).flatten
      lineErrs ++
        (if files.isEmpty then [no_valid_lines_msg manifest]
         else if check_manifest then
           files.filterMap
             (fun f => if fileExistsOn f then none
                       else some (file_not_exist_msg f manifest))
         else [])
  let npPart :=
    if num_processes ≠ 0 then
      if num_processes < 1 then [num_processes_msg num_processes] else []
    else []
  let gzPart :=
    if gzip_intermediates then
      if gzip_level < 1 ∨ gzip_level > 9 then [gzip_level_msg gzip_level]
      else []
    else []
  let smPart :=
    if sort_memory_cap ≤ 0 then [sort_memory_cap_msg (toString sort_memory_cap)]
    else []
  let mtPart :=
    if max_task_attempts < 1 then [max_task_attempts_msg max_task_attempts]
    else []
  manifestPart ++ npPart ++ gzPart ++ smPart ++ mtPart

/-- The `^[^-]+-[^-]+-[^-]+$` pattern of spec §6: exactly three nonempty
parts separated by two `-` characters.  (Stated from the claim, to be
compared with the code's check.) -/
def labelRegexMatches (s : String) : Bool :=
  let parts := splitChar (Char.ofNat 45) s
  parts.length = 3 && parts.all (fun p => ¬p.isEmpty)

/-- The numbered multi-line report Python builds from an error list
(rna_config.py lines 1194-1199): `1) e1\n2) e2\n...` when there is more
than one error, else the single error. -/
def numberedReport (errors : List String) : String :=
  if errors.length > 1 then
    pyJoin "\n"
      (errors.enum.map (fun p => toString (p.1 + 1) ++ ") " ++ p.2))
  else errors.headD ""

/-- The argument of `raise_runtime_error` (line 1184): either a single
validator instance (its error list) or a dictionary mapping engine IDs to
validator instances (an association list of engine ID and error list). -/
inductive Bases where
  | single (errors : List String)
  | dict (m : List (Nat × List String))
deriving Repr, DecidableEq

/-- `rna_config.raise_runtime_error` (lines 1184-1219).  For a single
instance with errors it raises `RuntimeError` with the numbered report.
For a dictionary it builds `errors_to_report` (grouping engines by
identical report) and `runtimeerror_message`, but then line 1219 executes
`raise RuntimeError('\n',join(errors_to_report))`: a comma typo, so the
undefined name `join` is evaluated and a `NameError` is raised instead,
and `runtimeerror_message` is discarded. -/
def raise_runtime_error (bases : Bases) : Except PyErr Unit :=
  match bases with
  | .single errs =>
      if ¬errs.isEmpty then
        Except.error (PyErr.runtimeError (numberedReport errs))
      else Except.ok ()
  | .dict m =>
      if m.any (fun p => ¬p.2.isEmpty) then
        Except.error (PyErr.nameError "join")
      else Except.ok ()

/-- Insert `x` into a strictly sorted list, skipping duplicates: one step
of the model of Python `sorted(set(id_list))` (rna_config.py line 183). -/
def insertUnique (x : Int) : List Int → List Int
  | [] => [x]
  | y :: ys =>
      if x < y then x :: y :: ys
      else if x = y then y :: ys
      else y :: insertUnique x ys

/-- Python `sorted(set(id_list))`: the strictly increasing enumeration of
the distinct elements. -/
def sorted_set (l : List Int) : List Int := l.foldr insertUnique []

/-- One flushed item of `engine_string_from_list` (rna_config.py
lines 192-197 and 200-205): a streak of `streak` consecutive increments
ending at `last_id`. -/
def close_item (last_id : Int) (streak : Nat) : String :=
  if streak > 1 then
    toString (last_id - (streak : Int)) ++ "-" ++ toString last_id
  else if streak = 1 then
    toString (last_id - 1) ++ ", " ++ toString last_id
  else toString last_id

/-- The main loop of `engine_string_from_list` (lines 186-205) over the
remaining IDs, carrying the current `last_id`, `streak` and the
accumulated `to_print`. -/
def print_loop (last_id : Int) (streak : Nat) (to_print : List String) :
    List Int → List String
  | [] => to_print ++ [close_item last_id streak]
  | e :: rest =>
      if e = last_id + 1 then print_loop e (streak + 1) to_print rest
      else print_loop e 0 (to_print ++ [close_item last_id streak]) rest

/-- Lines 206-207: prefix the final item with `and ` when more than one
item is printed. -/
def and_mark (l : List String) : List String :=
  if l.length > 1 then l.dropLast ++ ["and " ++ l.getLastD ""] else l

/-- `rna_config.engine_string_from_list` (lines 176-208): pretty-prints a
list of engine IDs, condensing maximal consecutive runs. -/
def engine_string_from_list (id_list : List Int) : String :=
  match sorted_set id_list with
  | [] => ""
  | first :: rest =>
      pyJoin ", " (and_mark (print_loop first 0 [] rest))

/-- Claim-side view: the maximal consecutive runs of a strictly sorted
list, as `(first, last)` pairs; helper carrying the current run. -/
def runsGo (first last : Int) : List Int → List (Int × Int)
  | [] => [(first, last)]
  | e :: rest =>
      if e = last + 1 then runsGo first e rest
      else (first, last) :: runsGo e e rest

/-- Claim-side view: maximal consecutive runs of a strictly sorted
list. -/
def runs : List Int → List (Int × Int)
  | [] => []
  | x :: xs => runsGo x x xs

/-- Claim-side format of one maximal run `(first, last)`: `first-last`
for runs of length at least 3, `first, last` for length 2, the single ID
otherwise. -/
def run_str (r : Int × Int) : String :=
  if r.1 + 1 < r.2 then toString r.1 ++ "-" ++ toString r.2
  else if r.2 = r.1 + 1 then toString r.1 ++ ", " ++ toString r.2
  else toString r.2

/-- The output the claim describes: format every maximal run of the
deduplicated sorted IDs, mark the final item with `and ` when more than
one item is printed, and join with `, `. -/
def expected_engine_string (l : List Int) : String :=
  pyJoin ", " (and_mark ((runs (sorted_set l)).map run_str))

/- `src/util/filemover.py`: `FileMover.get` (lines 61-94). -/

/-- The URL object `FileMover.get` receives (the `Url` class lives outside
the source tree; only the methods `get` calls are modelled): the three
classification predicates and the display forms. -/
structure MUrl where
  isS3 : Bool
  isCurlable : Bool
  isLocal : Bool
  toUrl : String
  toNonNativeUrl : String
deriving Repr, DecidableEq

/-- Outcome of `FileMover.get`: the commands constructed, the commands
actually executed through `subprocess.Popen`, and the result. -/
structure GetOutcome where
  constructed : List (List String)
  executed : List (List String)
  result : Except PyErr Unit
deriving Repr

/-- `FileMover.get` (filemover.py lines 61-94), with the environment's
exit level for each executed command supplied as `exitLevelOf`.  The S3,
curl and hadoop branches run their command and raise `RuntimeError` on a
positive exit level; the local branch builds `['cp', url, dest]` but
never executes it. -/
def FileMover.get (s3cred : Option String) (url : MUrl) (dest : String)
    (exitLevelOf : List String → Int) : GetOutcome :=
  if url.isS3 then
    let cmdl := ["s3cmd"]
      ++ (match s3cred with | some c => ["-c", c] | none => [])
      ++ ["get", url.toNonNativeUrl, dest]
    let extl := exitLevelOf cmdl
    ⟨[cmdl], [cmdl],
     if extl > 0 then
       Except.error (PyErr.runtimeError
         ("Non-zero exitlevel " ++ toString extl
           ++ " from s3cmd get command '"
           ++ pyJoin " " cmdl ++ "'"))
     else Except.ok ()⟩
  else if url.isCurlable then
    let cmdl := ["curl", "-O", "--retry", "5", "--connect-timeout", "60",
                 url.toUrl]
    let extl := exitLevelOf cmdl
    ⟨[cmdl], [cmdl],
     if extl > 0 then
       Except.error (PyErr.runtimeError
         ("Non-zero exitlevel " ++ toString extl ++ " from curl command '"
           ++ pyJoin " " cmdl ++ "'"))
     else Except.ok ()⟩
  else if url.isLocal then
    let cmdl := ["cp", url.toUrl, dest]
    ⟨[cmdl], [], Except.ok ()⟩
  else
    let cmdl := ["hadoop", "fs", "-get", url.toUrl, dest]
    let extl := exitLevelOf cmdl
    ⟨[cmdl], [cmdl],
     if extl > 0 then
       Except.error (PyErr.runtimeError
         ("Non-zero exitlevel " ++ toString extl
           ++ " from hadoop fs -get command '"
           ++ pyJoin " " cmdl ++ "'"))
     else Except.ok ()⟩

/- `RailRnaElastic.instances` (rna_config.py lines 2396-2458). -/

/-- One entry of the `InstanceGroups` list.  `market` and `bidPrice` start
absent and are assigned afterwards, exactly as in the source.  Bid prices
are carried as their already-formatted `'%0.03f'` strings (float
formatting is abstracted; the claim concerns which group the fields are
written to). -/
structure InstanceGroup where
  instanceCount : Nat
  instanceRole : String
  instanceType : String
  grpName : String
  market : Option String
  bidPrice : Option String
deriving Repr, DecidableEq

/-- The fields of `base` that `RailRnaElastic.instances` reads. -/
structure ElasticBase where
  master_instance_count : Nat
  master_instance_type : String
  master_instance_bid_price : Option String
  core_instance_count : Nat
  core_instance_type : String
  core_instance_bid_price : Option String
  task_instance_count : Nat
  task_instance_type : String
  task_instance_bid_price : Option String
  keep_alive : Bool
  termination_protected : Bool
  ec2_key_name : Option String
deriving Repr, DecidableEq

/-- The `Instances` dictionary returned by `RailRnaElastic.instances`. -/
structure InstancesDict where
  hadoopVersion : String
  instanceGroups : List InstanceGroup
  keepJobFlowAliveWhenNoSteps : String
  terminationProtected : String
  ec2KeyName : Option String
deriving Repr, DecidableEq

/-- Write `market`/`bidPrice` of the group at index `i`
(`to_return['InstanceGroups'][i]['Market'] = ...`). -/
def setMarketBid (l : List InstanceGroup) (i : Nat) (market : String)
    (bid : Option String) : List InstanceGroup :=
  match l, i with
  | [], _ => []
  | g :: rest, 0 => { g with market := some market,
                             bidPrice := match bid with
                                         | some b => some b
                                         | none => g.bidPrice } :: rest
  | g :: rest, n + 1 => g :: setMarketBid rest n market bid

/-- `RailRnaElastic.instances` (lines 2396-2458).  The master group's
market/bid go to index 0; the core group (appended only when
`core_instance_count` is nonzero) has its market/bid written to index 1;
the task group's market/bid are also written to index 1 — the source
hard-codes `InstanceGroups[1]` in the task branch (lines 2449-2455)
whether or not a core group was appended before the task group. -/
def RailRnaElastic.instances (base : ElasticBase) :
    Except PyErr InstancesDict :=
  if base.master_instance_count < 1 then
    Except.error (PyErr.assertionError "")
  else
    let groups0 : List InstanceGroup :=
      [⟨base.master_instance_count, "MASTER", base.master_instance_type,
        "Master Instance Group", none, none⟩]
    let groups1 :=
      match base.master_instance_bid_price with
      | some b => setMarketBid groups0 0 "SPOT" (some b)
      | none => setMarketBid groups0 0 "ON_DEMAND" none
    let groups2 :=
      if base.core_instance_count ≠ 0 then
        let appended := groups1 ++
          [⟨base.core_instance_count, "CORE", base.core_instance_type,
            "Core Instance Group", none, none⟩]
        match base.core_instance_bid_price with
        | some b => setMarketBid appended 1 "SPOT" (some b)
        | none => setMarketBid appended 1 "ON_DEMAND" none
      else groups1
    let groups3 :=
      if base.task_instance_count ≠ 0 then
        let appended := groups2 ++
          [⟨base.task_instance_count, "TASK", base.task_instance_type,
            "Task Instance Group", none, none⟩]
        match base.task_instance_bid_price with
        | some b => setMarketBid appended 1 "SPOT" (some b)
        | none => setMarketBid appended 1 "ON_DEMAND" none
      else groups2
    Except.ok ⟨"2.4.0", groups3,
      (if base.keep_alive then "true" else "false"),
      (if base.termination_protected then "true" else "false"),
      base.ec2_key_name⟩

/-! ## Claim theorems -/

/-- Claim-side arithmetic: the smallest multiple of `r` that is at least
`m`, written with a ceiling division. -/
def roundUpToMultiple (r m : Nat) : Nat := r * ((m + r - 1) / r)

lemma roundUpToMultiple_spec (r m : Nat) (hr : 0 < r) :
    m ≤ roundUpToMultiple r m ∧ roundUpToMultiple r m % r = 0 ∧
      ∀ t, m ≤ t → t % r = 0 → roundUpToMultiple r m ≤ t := by
  have h1 := Nat.div_add_mod m r
  have h2 : m % r < r := Nat.mod_lt _ hr
  have hdiv : ∀ q s, s < r → (r * q + s) / r = q := by
    intro q s hs
    rw [Nat.add_comm, Nat.add_mul_div_left _ _ hr, Nat.div_eq_of_lt hs,
        Nat.zero_add]
  by_cases h : m % r = 0
  · have hm : m = r * (m / r) := by omega
    have hval : roundUpToMultiple r m = m := by
      have : m + r - 1 = r * (m / r) + (r - 1) := by omega
      rw [roundUpToMultiple, this, hdiv _ _ (by omega), ← hm]
    refine ⟨le_of_eq hval.symm, ?_, ?_⟩
    · rw [hval, hm]; exact Nat.mul_mod_right _ _
    · intro t ht _; omega
  · have hmul : r * (m / r + 1) = r * (m / r) + r := by ring
    have hm : m + r - 1 = r * (m / r + 1) + (m % r - 1) := by omega
    have hval : roundUpToMultiple r m = r * (m / r + 1) := by
      rw [roundUpToMultiple, hm, hdiv _ _ (by omega)]
    refine ⟨by omega, ?_, ?_⟩
    · rw [hval]; exact Nat.mul_mod_right _ _
    · intro t ht htr
      have h3 := Nat.div_add_mod t r
      have htq : t = r * (t / r) := by omega
      have h4 : m / r < t / r := by
        by_contra hcon
        push_neg at hcon
        have := Nat.mul_le_mul_left r hcon
        omega
      have := Nat.mul_le_mul_left r (by omega : m / r + 1 ≤ t / r)
      omega

lemma code_round_eq (m r : Nat) (hr : 0 < r) :
    (if m % r = 0 then m else m + r - ((m + r) % r)) =
      roundUpToMultiple r m := by
  have h1 := Nat.div_add_mod m r
  have h2 : m % r < r := Nat.mod_lt _ hr
  have hdiv : ∀ q s, s < r → (r * q + s) / r = q := by
    intro q s hs
    rw [Nat.add_comm, Nat.add_mul_div_left _ _ hr, Nat.div_eq_of_lt hs,
        Nat.zero_add]
  have hmod : (m + r) % r = m % r := Nat.add_mod_right m r
  by_cases h : m % r = 0
  · have : m + r - 1 = r * (m / r) + (r - 1) := by omega
    rw [if_pos h, roundUpToMultiple, this, hdiv _ _ (by omega)]
    omega
  · have hmul : r * (m / r + 1) = r * (m / r) + r := by ring
    have : m + r - 1 = r * (m / r + 1) + (m % r - 1) := by omega
    rw [if_neg h, roundUpToMultiple, this, hdiv _ _ (by omega), hmod]
    omega

/-- A protostep carrying `min_tasks = 5`, `max_tasks = 20`. -/
def psMin5Max20 : Protostep :=
  ⟨"s", "s.py", ["i"], false, "o", false, none, none, some (some 5),
   some 20, none, none, none, false, false, none, none⟩

/-- A protostep carrying `min_tasks = 10` and no `max_tasks`. -/
def psMin10 : Protostep :=
  ⟨"s", "s.py", ["i"], false, "o", false, none, none, some (some 10),
   none, none, none, none, false, false, none, none⟩

/-- A protostep carrying `taskx = 2`. -/
def psTaskx2 : Protostep :=
  ⟨"s", "s.py", ["i"], false, "o", false, none, none, none,
   none, some (some 2), none, none, false, false, none, none⟩

/-- A protostep carrying `taskx = None`. -/
def psTaskxNone : Protostep :=
  ⟨"s", "s.py", ["i"], false, "o", false, none, none, none,
   none, some none, none, none, false, false, none, none⟩

/-- C2.  For every protostep and reducer parallelism R, the compiled
reducer task count is: 1 when `taskx` is present with value `None`; m·R
when `taskx` is m; otherwise (numeric `min_tasks`) the smallest multiple
of R that is ≥ `min_tasks`, clipped to `max_tasks` when `max_tasks` is
present.  The stated examples `min-tasks=5, max-tasks=20, R=8 ⇒ 8`,
`min-tasks=10, R=8 ⇒ 16`, `task-multiplier=2, R=8 ⇒ 16` and
`taskx=None ⇒ 1` are instances. -/
theorem claim_C2 (ps : Protostep) (R : Nat) :
    (ps.taskx = some none → reducer_task_count ps R = Except.ok 1) ∧
    (∀ m, ps.taskx = some (some m) →
        reducer_task_count ps R = Except.ok (R * m)) ∧
    (∀ m, ps.taskx = none → ps.min_tasks = some (some m) → 0 < R →
        reducer_task_count ps R =
          Except.ok (match ps.max_tasks with
                     | some mx => min (roundUpToMultiple R m) mx
                     | none => roundUpToMultiple R m) ∧
        m ≤ roundUpToMultiple R m ∧ roundUpToMultiple R m % R = 0 ∧
        ∀ t, m ≤ t → t % R = 0 → roundUpToMultiple R m ≤ t) ∧
    (reducer_task_count psMin5Max20 8 = Except.ok 8 ∧
     reducer_task_count psMin10 8 = Except.ok 16 ∧
     reducer_task_count psTaskx2 8 = Except.ok 16 ∧
     reducer_task_count psTaskxNone 8 = Except.ok 1) := by
  refine ⟨?_, ?_, ?_, ⟨rfl, rfl, rfl, rfl⟩⟩
  · intro h
    simp [reducer_task_count, h]
  · intro m h
    simp [reducer_task_count, h]
  · intro m htx hmt hR
    obtain ⟨hle, hmod, hmin⟩ := roundUpToMultiple_spec R m hR
    refine ⟨?_, hle, hmod, hmin⟩
    simp only [reducer_task_count, htx, hmt]
    rw [code_round_eq m R hR]

/-- Witness for C2 at `R = 8`, `min_tasks = 10`. -/
theorem claim_C2_witness :
    psMin10.taskx = none ∧ psMin10.min_tasks = some (some 10) ∧
      (0 : Nat) < 8 ∧
      reducer_task_count psMin10 8 =
        Except.ok (match psMin10.max_tasks with
                   | some mx => min (roundUpToMultiple 8 10) mx
                   | none => roundUpToMultiple 8 10) := by
  refine ⟨by decide, by decide, by decide, ?_⟩
  exact ((claim_C2 psMin10 8).2.2.1 10 (by decide) (by decide)
          (by decide)).1

/-- C1.  For every protostep compiled by `steps`/`step` with declared key
count K and partition prefix P: the emitted job configuration (`-D`
pairs) sets `stream.num.map.output.key.fields` to K and
`mapreduce.partition.keypartitioner.options` to `-k1,P`; exactly when
`P < K` it additionally sets the key-field-based comparator class with
options `-k1,P -kP+1,K`; when `K < P` the assert on line 699 fires; and a
pure-map protostep (no `keys`/`part`) gets only the task-count `-D` entry
and the caller's extra `-D` args, i.e. no partition or comparator
configuration at all. -/
theorem claim_C1 (nm : String) (inputs : List String)
    (output mapper reducer aof jar : String) (tasks P K : Nat)
    (archives : Option String) (mo : Bool) (ifmt : Option String)
    (extra : List String) :
    (P ≤ K →
      (step nm inputs output mapper reducer aof jar tasks
          (some P) (some K) archives mo ifmt extra).map
        (fun st => dConf st.hadoop_jar_step.args) =
      Except.ok
        (["mapreduce.job.reduces=" ++ toString tasks,
          "stream.num.map.output.key.fields=" ++ toString K,
          "mapreduce.partition.keypartitioner.options=-k1," ++ toString P]
         ++ (if P < K then
               ["mapreduce.job.output.key.comparator.class="
                  ++ "org.apache.hadoop.mapred.lib.KeyFieldBasedComparator",
                "mapreduce.partition.keycomparator.options=-k1,"
                  ++ toString P ++ " -k" ++ toString (P + 1)
                  ++ "," ++ toString K]
             else [])
         ++ extra)) ∧
    (K < P →
      step nm inputs output mapper reducer aof jar tasks
          (some P) (some K) archives mo ifmt extra =
        Except.error (PyErr.assertionError "")) ∧
    ((step nm inputs output mapper reducer aof jar tasks
          none none archives mo ifmt extra).map
        (fun st => dConf st.hadoop_jar_step.args) =
      Except.ok (["mapreduce.job.reduces=" ++ toString tasks] ++ extra)) := by
  refine ⟨?_, ?_, ?_⟩
  · intro hPK
    simp only [step, ge_iff_le, hPK, if_true, Except.map]
    by_cases hlt : P < K
    · have hne : K ≠ P := by omega
      simp only [partitionArgs, if_pos hne, if_pos hlt]
      simp only [stepArgsList, List.cons_append, List.nil_append,
                 List.append_assoc]
      rw [dConf_cons, dConf_cons, dConf_cons, dConf_cons, dConf_cons,
          dConf_join_pairs _ _ _ (by decide)]
    · have heq : K = P := by omega
      simp only [partitionArgs, heq, ne_eq, not_true_eq_false, if_false,
                 if_neg hlt]
      simp only [stepArgsList, List.cons_append, List.nil_append,
                 List.append_assoc]
      rw [dConf_cons, dConf_cons, dConf_cons,
          dConf_join_pairs _ _ _ (by decide)]
      simp
  · intro hKP
    have h : ¬K ≥ P := by omega
    simp only [step, ge_iff_le, h, if_false]
  · simp only [step, Except.map]
    simp only [stepArgsList, List.cons_append, List.nil_append,
               List.append_assoc]
    rw [dConf_cons, dConf_join_pairs _ _ _ (by decide)]

/-- Witness for C1 at `P = 2`, `K = 3` (and `K = 1 < P = 2` for the
assert). -/
theorem claim_C1_witness :
    ((2 : Nat) ≤ 3 ∧
      (step "n" ["a"] "o" "m" "r" "A" "j" 7 (some 2) (some 3) none false
          none ["x=1"]).map (fun st => dConf st.hadoop_jar_step.args) =
        Except.ok
          (["mapreduce.job.reduces=" ++ toString 7,
            "stream.num.map.output.key.fields=" ++ toString 3,
            "mapreduce.partition.keypartitioner.options=-k1,"
              ++ toString 2]
           ++ (if 2 < 3 then
                 ["mapreduce.job.output.key.comparator.class="
                    ++ "org.apache.hadoop.mapred.lib"
                    ++ ".KeyFieldBasedComparator",
                  "mapreduce.partition.keycomparator.options=-k1,"
                    ++ toString 2 ++ " -k" ++ toString (2 + 1)
                    ++ "," ++ toString 3]
               else [])
           ++ ["x=1"])) ∧
    ((1 : Nat) < 2 ∧
      step "n" ["a"] "o" "m" "r" "A" "j" 7 (some 2) (some 1) none false
          none ["x=1"] = Except.error (PyErr.assertionError "")) := by
  refine ⟨⟨by decide, ?_⟩, ⟨by decide, ?_⟩⟩
  · exact (claim_C1 "n" ["a"] "o" "m" "r" "A" "j" 7 2 3 none false none
      ["x=1"]).1 (by decide)
  · exact (claim_C1 "n" ["a"] "o" "m" "r" "A" "j" 7 2 1 none false none
      ["x=1"]).2.1 (by decide)


lemma step_args_shape (nm : String) (inputs : List String)
    (output mapper reducer aof jar : String) (tasks : Nat)
    (pfc kf : Option Nat) (archives : Option String) (mo : Bool)
    (ifmt : Option String) (extra : List String) (st : Step)
    (h : step nm inputs output mapper reducer aof jar tasks pfc kf
        archives mo ifmt extra = Except.ok st) :
    ∃ pargs, st.hadoop_jar_step.args =
      stepArgsList inputs output mapper reducer tasks pargs archives mo
        ifmt extra := by
  rcases pfc with _ | p <;> rcases kf with _ | k
  · cases h; exact ⟨[], rfl⟩
  · cases h; exact ⟨[], rfl⟩
  · cases h; exact ⟨[], rfl⟩
  · by_cases hkp : k ≥ p
    · simp only [step, ge_iff_le, hkp, if_true] at h
      cases h; exact ⟨partitionArgs p k, rfl⟩
    · simp only [step, ge_iff_le, hkp, if_false] at h
      cases h

lemma step_mapper_reducer_infix (nm : String) (inputs : List String)
    (output mapper reducer aof jar : String) (tasks : Nat)
    (pfc kf : Option Nat) (archives : Option String) (mo : Bool)
    (ifmt : Option String) (extra : List String) (st : Step)
    (h : step nm inputs output mapper reducer aof jar tasks pfc kf
        archives mo ifmt extra = Except.ok st) :
    ["-mapper", mapper, "-reducer", reducer] <:+: st.hadoop_jar_step.args
      := by
  obtain ⟨pargs, hp⟩ := step_args_shape nm inputs output mapper reducer
    aof jar tasks pfc kf archives mo ifmt extra st h
  rw [hp]
  simp only [stepArgsList]
  refine ⟨["-D", "mapreduce.job.reduces=" ++ toString tasks]
        ++ pargs
        ++ (extra.map (fun a => ["-D", a])).flatten
        ++ ["-libjars",
            _relevant_elephant_jar
              ++ (if mo then "," ++ _multiple_files_jar else "")]
        ++ archBlock archives
        ++ ["-partitioner",
            "org.apache.hadoop.mapred.lib.KeyFieldBasedPartitioner"]
        ++ ["-input", pyJoin "," (inputs.map (fun s => pyStrip s))]
        ++ ["-output", output],
      (if mo then ["-outputformat", "edu.jhu.cs.MultipleOutputFormat"]
       else [])
        ++ ifmtBlock ifmt, ?_⟩
  simp [List.append_assoc, List.cons_append, List.nil_append]

/-- C3.  For every protostep the compiler accepts: when no key fields are
declared, the compiled step's mapper is the operator command (Python
executable plus script path, `opCommand`) and its reducer is the identity
command `cat`; when key fields are declared, the mapper is the identity
mapper and the reducer is the operator command. -/
theorem claim_C3 (ps : Protostep) (aof jar sd : String) (rc : Nat)
    (idir : String) (unix ncv : Bool) (exe : String) (st : Step)
    (rest : List Step)
    (hok : stepsFor ps aof jar sd rc idir unix ncv exe =
      Except.ok (st :: rest)) :
    (ps.keys = none →
      ["-mapper", opCommand unix exe sd ps.run, "-reducer", "cat"]
        <:+: st.hadoop_jar_step.args) ∧
    (∀ k, ps.keys = some k →
      ["-mapper", identity_mapper unix, "-reducer",
       opCommand unix exe sd ps.run] <:+: st.hadoop_jar_step.args) := by
  simp only [stepsFor] at hok
  split at hok
  · cases hok
  · split at hok
    · cases hok
    · split at hok
      · cases hok
      · rename_i heqStep
        split at hok
        · cases hok
        · rename_i mainStep heq
          injection hok with h1
          injection h1 with hhead htail
          subst hhead
          have hinf := step_mapper_reducer_infix _ _ _ _ _ _ _ _ _ _ _ _ _
            _ _ heq
          constructor
          · intro hk
            simpa [hk] using hinf
          · intro k hk
            simpa [hk] using hinf

/-- Witness for C3: the pure-map protostep `psMin10` compiles to a step
whose mapper is the operator command and whose reducer is `cat`. -/
theorem claim_C3_witness :
    stepsFor psMin10 "T" "j" "/sd" 8 "/i" false false "python" =
      Except.ok [⟨"s", "T",
        ⟨"j", ["-D", "mapreduce.job.reduces=16", "-libjars",
               "/mnt/lib/relevant-elephant.jar", "-partitioner",
               "org.apache.hadoop.mapred.lib.KeyFieldBasedPartitioner",
               "-input", "/i/i", "-output", "/i/o", "-mapper",
               "python /sd/s.py", "-reducer", "cat", "-inputformat",
               "com.twitter.elephantbird.mapred.input"
                 ++ ".DeprecatedCombineLzoTextInputFormat"]⟩⟩] ∧
    psMin10.keys = none ∧
    ["-mapper", opCommand false "python" "/sd" psMin10.run, "-reducer",
     "cat"] <:+:
      ["-D", "mapreduce.job.reduces=16", "-libjars",
       "/mnt/lib/relevant-elephant.jar", "-partitioner",
       "org.apache.hadoop.mapred.lib.KeyFieldBasedPartitioner",
       "-input", "/i/i", "-output", "/i/o", "-mapper",
       "python /sd/s.py", "-reducer", "cat", "-inputformat",
       "com.twitter.elephantbird.mapred.input"
         ++ ".DeprecatedCombineLzoTextInputFormat"] := by
  have hok : stepsFor psMin10 "T" "j" "/sd" 8 "/i" false false "python" =
      Except.ok [⟨"s", "T",
        ⟨"j", ["-D", "mapreduce.job.reduces=16", "-libjars",
               "/mnt/lib/relevant-elephant.jar", "-partitioner",
               "org.apache.hadoop.mapred.lib.KeyFieldBasedPartitioner",
               "-input", "/i/i", "-output", "/i/o", "-mapper",
               "python /sd/s.py", "-reducer", "cat", "-inputformat",
               "com.twitter.elephantbird.mapred.input"
                 ++ ".DeprecatedCombineLzoTextInputFormat"]⟩⟩] := by decide
  refine ⟨hok, rfl, ?_⟩
  exact (claim_C3 psMin10 "T" "j" "/sd" 8 "/i" false false "python" _ []
    hok).1 rfl

lemma isPrefixOf_append_self (l t : List Char) :
    l.isPrefixOf (l ++ t) = true := by
  induction l with
  | nil => simp [List.isPrefixOf]
  | cons c cs ih => simp [List.isPrefixOf, ih]

lemma hasSub_nil_needle (l : List Char) : hasSub l [] = true := by
  cases l <;> simp [hasSub, List.isPrefixOf]

lemma hasSub_parts (pre mid post : List Char) :
    hasSub (pre ++ (mid ++ post)) mid = true := by
  induction pre with
  | nil =>
      cases mid with
      | nil => exact hasSub_nil_needle post
      | cons c cs =>
          simp only [List.nil_append, hasSub, List.cons_append,
                     Bool.or_eq_true]
          left
          exact isPrefixOf_append_self (c :: cs) post
  | cons c cs ih =>
      cases mid with
      | nil => exact hasSub_nil_needle _
      | cons d ds =>
          simp only [List.cons_append, hasSub, Bool.or_eq_true]
          right
          simpa using ih

lemma strContains_parts (a b c : String) :
    strContains (a ++ (b ++ c)) b = true := by
  have h : (a ++ (b ++ c)).toList = a.toList ++ (b.toList ++ c.toList) := by
    simp [String.toList, String.data_append]
  rw [strContains, h]
  exact hasSub_parts _ _ _

/-- C4 counterexample.  Run the local-mode validation fragment on the
scenario of the claim (`--manifest missing.tsv -p 0
--max-task-attempts 0`, other arguments at their defaults): only TWO
errors are produced, not three, and neither is the num-processes error —
`if num_processes:` on line 1529 treats the entered 0 as "not given" and
silently falls back to the CPU count. -/
theorem claim_C4_counterexample :
    (railRnaLocalFragmentErrors "missing.tsv" false [] false
        (fun _ => false) 0 false 3 (307200 : Rat) 0).length = 2 ∧
    (railRnaLocalFragmentErrors "missing.tsv" false [] false
        (fun _ => false) 0 false 3 (307200 : Rat) 0).contains
      (num_processes_msg 0) = false := by
  exact ⟨by decide, by decide⟩

/-- C4 (amended).  Local-mode validation accumulates errors rather than
stopping at the first: on the claim's scenario the error list is exactly
[manifest-does-not-exist, max-task-attempts], in that order — the
num-processes error is NOT among them because `-p 0` is falsy and takes
the default-CPU-count path — and the nonempty list still aborts the run
through `raise_runtime_error` (configuration-error exit). -/
theorem claim_C4 :
    railRnaLocalFragmentErrors "missing.tsv" false [] false
        (fun _ => false) 0 false 3 (307200 : Rat) 0 =
      [manifest_not_exist_msg "missing.tsv", max_task_attempts_msg 0] ∧
    raise_runtime_error (Bases.single
        [manifest_not_exist_msg "missing.tsv", max_task_attempts_msg 0]) =
      Except.error (PyErr.runtimeError (numberedReport
        [manifest_not_exist_msg "missing.tsv",
         max_task_attempts_msg 0])) := by
  exact ⟨by decide, by decide⟩

/-- C5 counterexample.  The manifest line `reads.fq.gz\t0\t--` has 3
fields and its sample label `--` fails the `^[^-]+-[^-]+-[^-]+$` pattern
(its parts are empty), yet the validator appends NO error for it: the
code only counts `-` characters (line 1438). -/
theorem claim_C5_counterexample :
    labelRegexMatches "--" = false ∧
    (tokensOf "reads.fq.gz\t0\t--").length = 3 ∧
    processManifestLine "m.tsv" "reads.fq.gz\t0\t--" =
      ([], ["reads.fq.gz"]) := by
  refine ⟨by decide, by decide, by decide⟩

/-- C5 (amended).  For every manifest data line with 3 or 5 tab-separated
fields, the validator appends the invalid-sample-label error if and only
if the last field's count of `-` characters differs from 2 (empty parts
are accepted), and the error message names the manifest location, the
stripped line content (not a line number), and the
`<Group ID>-<BioRep ID>-<TechRep ID>` pattern. -/
theorem claim_C5 (murl line : String)
    (h0 : pyStartsWith line "#" = false) (h1 : pyStrip line ≠ "")
    (h2 : (tokensOf line).length = 3 ∨ (tokensOf line).length = 5) :
    (processManifestLine murl line).1 =
      (if countDash ((tokensOf line).getLastD "") ≠ 2 then
         [invalid_label_msg murl (pyStrip line)]
       else []) ∧
    strContains (invalid_label_msg murl (pyStrip line)) murl = true ∧
    strContains (invalid_label_msg murl (pyStrip line))
      (pyStrip line) = true ∧
    strContains (invalid_label_msg murl (pyStrip line))
      "<Group ID>-<BioRep ID>-<TechRep ID>" = true := by
  refine ⟨?_, ?_, ?_, ?_⟩
  · rcases h2 with h2 | h2 <;> simp [processManifestLine, h0, h1, h2]
  · have h : invalid_label_msg murl (pyStrip line) =
        "The following line from the manifest file "
          ++ (murl
          ++ (" has an invalid sample label: \n" ++ pyStrip line
              ++ "\nA valid sample label takes the following form:\n"
              ++ "<Group ID>-<BioRep ID>-<TechRep ID>")) := by
      apply String.ext
      simp [invalid_label_msg, String.data_append]
    rw [h]
    exact strContains_parts _ _ _
  · have h : invalid_label_msg murl (pyStrip line) =
        ("The following line from the manifest file " ++ murl
          ++ " has an invalid sample label: \n")
          ++ (pyStrip line
          ++ ("\nA valid sample label takes the following form:\n"
              ++ "<Group ID>-<BioRep ID>-<TechRep ID>")) := by
      apply String.ext
      simp [invalid_label_msg, String.data_append]
    rw [h]
    exact strContains_parts _ _ _
  · have h : invalid_label_msg murl (pyStrip line) =
        ("The following line from the manifest file " ++ murl
          ++ " has an invalid sample label: \n" ++ pyStrip line
          ++ "\nA valid sample label takes the following form:\n")
          ++ ("<Group ID>-<BioRep ID>-<TechRep ID>" ++ "") := by
      apply String.ext
      simp [invalid_label_msg, String.data_append]
    rw [h]
    exact strContains_parts _ _ _

/-- Witness for C5 at the spec's example line `reads.fq.gz\t0\tGroupA-Rep1`
(a 3-field line whose label has one `-`): the error is appended. -/
theorem claim_C5_witness :
    pyStartsWith "reads.fq.gz\t0\tGroupA-Rep1" "#" = false ∧
    pyStrip "reads.fq.gz\t0\tGroupA-Rep1" ≠ "" ∧
    (tokensOf "reads.fq.gz\t0\tGroupA-Rep1").length = 3 ∧
    (processManifestLine "m.tsv" "reads.fq.gz\t0\tGroupA-Rep1").1 =
      (if countDash ((tokensOf "reads.fq.gz\t0\tGroupA-Rep1").getLastD "")
          ≠ 2 then
         [invalid_label_msg "m.tsv"
            (pyStrip "reads.fq.gz\t0\tGroupA-Rep1")]
       else []) ∧
    strContains
      (invalid_label_msg "m.tsv" (pyStrip "reads.fq.gz\t0\tGroupA-Rep1"))
      "<Group ID>-<BioRep ID>-<TechRep ID>" = true := by
  refine ⟨by decide, by decide, by decide, ?_, ?_⟩
  · exact (claim_C5 "m.tsv" "reads.fq.gz\t0\tGroupA-Rep1" (by decide)
      (by decide) (Or.inl (by decide))).1
  · exact (claim_C5 "m.tsv" "reads.fq.gz\t0\tGroupA-Rep1" (by decide)
      (by decide) (Or.inl (by decide))).2.2.2

/-- C6.  The claim says `raise_runtime_error` on a dictionary with at
least one nonempty error list raises a single `RuntimeError` carrying the
grouped report.  The code instead reaches
`raise RuntimeError('\n',join(errors_to_report))` (line 1219, a comma
typo), so the undefined name `join` is evaluated and a `NameError` is
raised; the grouped report in `runtimeerror_message` is discarded.  This
theorem evaluates the embedded code at the failing input
`{0: ['error A']}`. -/
theorem claim_C6 :
    raise_runtime_error (Bases.dict [(0, ["error A"])]) =
      Except.error (PyErr.nameError "join") ∧
    raise_runtime_error (Bases.single ["error A"]) =
      Except.error (PyErr.runtimeError "error A") := by
  exact ⟨by decide, by decide⟩

/-- C7.  The claim says the TASK instance group receives `Market`/`BidPrice`
from the task-instance bid price whether or not a core group is present.
The code writes the task-instance fields to `InstanceGroups[1]`
(lines 2449-2455): with a core group present and
`task_instance_bid_price = 0.500`, the CORE group (index 1) ends up with
`Market SPOT` and the task bid price while the TASK group gets no
`Market` at all.  This theorem evaluates the embedded code at that
failing input. -/
theorem claim_C7 :
    RailRnaElastic.instances
      ⟨1, "m3.xlarge", none, 1, "c3.2xlarge", none, 1, "c3.2xlarge",
       some "0.500", false, false, none⟩ =
      Except.ok ⟨"2.4.0",
        [⟨1, "MASTER", "m3.xlarge", "Master Instance Group",
          some "ON_DEMAND", none⟩,
         ⟨1, "CORE", "c3.2xlarge", "Core Instance Group",
          some "SPOT", some "0.500"⟩,
         ⟨1, "TASK", "c3.2xlarge", "Task Instance Group", none, none⟩],
        "false", "false", none⟩ ∧
    RailRnaElastic.instances
      ⟨1, "m3.xlarge", none, 0, "c3.2xlarge", none, 1, "c3.2xlarge",
       some "0.500", false, false, none⟩ =
      Except.ok ⟨"2.4.0",
        [⟨1, "MASTER", "m3.xlarge", "Master Instance Group",
          some "ON_DEMAND", none⟩,
         ⟨1, "TASK", "c3.2xlarge", "Task Instance Group",
          some "SPOT", some "0.500"⟩],
        "false", "false", none⟩ := by
  exact ⟨by decide, by decide⟩

/-- A protostep with both `multiple_outputs` and `direct_copy` set. -/
def psBothFlags : Protostep :=
  ⟨"both", "b.py", ["i"], false, "o", false, some 1, some 1,
   some (some 1), none, none, none, none, true, false, some true, none⟩

/-- Does the error's message mention both of the mutually exclusive
flags?  (Formalises "an error naming both flags".) -/
def namesBothFlags (e : PyErr) : Bool :=
  strContains (errMessage e) "multiple_outputs" &&
    strContains (errMessage e) "direct_copy"

/-- C8 counterexample.  Compiling a protostep with both flags raises the
bare `assert` of line 813 — `AssertionError` with an EMPTY message, which
does not name either flag — so the claim's "error naming both flags" is
false as stated (the mutual exclusion and the absence of any emitted step
do hold). -/
theorem claim_C8_counterexample :
    steps [psBothFlags] "T" "j" "/sd" 8 "/i" true false "pypy" =
      Except.error (PyErr.assertionError "") ∧
    namesBothFlags (PyErr.assertionError "") = false := by
  exact ⟨by decide, by decide⟩

/-- C8 (amended).  For every protostep that sets both `multiple_outputs`
and `direct_copy`, compilation fails with a bare `AssertionError` (whose
empty message names neither flag), emits no Step for that protostep, and
aborts `steps`: whenever such a protostep occurs anywhere in the list, no
step list is produced. -/
theorem claim_C8 (ps : Protostep) (aof jar sd : String) (rc : Nat)
    (idir : String) (unix ncv : Bool) (exe : String)
    (hmo : ps.multiple_outputs = true) (hdc : ps.direct_copy.isSome) :
    stepsFor ps aof jar sd rc idir unix ncv exe =
      Except.error (PyErr.assertionError "") ∧
    (∀ L, ps ∈ L →
      ∃ e, steps L aof jar sd rc idir unix ncv exe = Except.error e) := by
  have hfor : stepsFor ps aof jar sd rc idir unix ncv exe =
      Except.error (PyErr.assertionError "") := by
    unfold stepsFor
    by_cases hks : ps.keys.isSome = ps.part.isSome
    · rw [if_neg (not_not_intro hks), if_pos ⟨hdc, hmo⟩]
    · rw [if_pos hks]
  refine ⟨hfor, ?_⟩
  intro L hmem
  induction L with
  | nil => cases hmem
  | cons q rest ih =>
      rcases List.mem_cons.mp hmem with hq | hq
      · subst hq
        refine ⟨PyErr.assertionError "", ?_⟩
        unfold steps
        rw [hfor]
      · obtain ⟨e, he⟩ := ih hq
        unfold steps
        cases hq2 : stepsFor q aof jar sd rc idir unix ncv exe with
        | error e2 => exact ⟨e2, rfl⟩
        | ok ss =>
            rw [he]
            exact ⟨e, rfl⟩

/-- Witness for C8 at `psBothFlags`. -/
theorem claim_C8_witness :
    psBothFlags.multiple_outputs = true ∧
    psBothFlags.direct_copy.isSome = true ∧
    stepsFor psBothFlags "T" "j" "/sd" 8 "/i" true false "pypy" =
      Except.error (PyErr.assertionError "") ∧
    (∃ e, steps [psBothFlags] "T" "j" "/sd" 8 "/i" true false "pypy" =
      Except.error e) := by
  refine ⟨by decide, by decide, ?_, ?_⟩
  · exact (claim_C8 psBothFlags "T" "j" "/sd" 8 "/i" true false "pypy"
      (by decide) (by decide)).1
  · exact (claim_C8 psBothFlags "T" "j" "/sd" 8 "/i" true false "pypy"
      (by decide) (by decide)).2 [psBothFlags] (List.mem_singleton.mpr rfl)

/-- C9.  For every URL classified as local, `FileMover.get` returns
normally with no command executed: the `cp` command is constructed but
never run (the destination is untouched), and no exception is raised —
unlike the S3, HTTP/FTP and HDFS branches, which each execute exactly
their external command and raise `RuntimeError` exactly when its exit
level is positive. -/
theorem claim_C9 (url : MUrl) (dest : String) (cred : Option String)
    (env : List String → Int) :
    (url.isS3 = false → url.isCurlable = false → url.isLocal = true →
      (FileMover.get cred url dest env).executed = [] ∧
      (FileMover.get cred url dest env).result = Except.ok () ∧
      (FileMover.get cred url dest env).constructed =
        [["cp", url.toUrl, dest]]) ∧
    (url.isS3 = true →
      (FileMover.get cred url dest env).executed =
        [["s3cmd"] ++ (match cred with | some c => ["-c", c] | none => [])
          ++ ["get", url.toNonNativeUrl, dest]] ∧
      ((∃ m, (FileMover.get cred url dest env).result =
          Except.error (PyErr.runtimeError m)) ↔
        0 < env (["s3cmd"]
          ++ (match cred with | some c => ["-c", c] | none => [])
          ++ ["get", url.toNonNativeUrl, dest]))) ∧
    (url.isS3 = false → url.isCurlable = true →
      (FileMover.get cred url dest env).executed =
        [["curl", "-O", "--retry", "5", "--connect-timeout", "60",
          url.toUrl]] ∧
      ((∃ m, (FileMover.get cred url dest env).result =
          Except.error (PyErr.runtimeError m)) ↔
        0 < env ["curl", "-O", "--retry", "5", "--connect-timeout", "60",
          url.toUrl])) ∧
    (url.isS3 = false → url.isCurlable = false → url.isLocal = false →
      (FileMover.get cred url dest env).executed =
        [["hadoop", "fs", "-get", url.toUrl, dest]] ∧
      ((∃ m, (FileMover.get cred url dest env).result =
          Except.error (PyErr.runtimeError m)) ↔
        0 < env ["hadoop", "fs", "-get", url.toUrl, dest])) := by
  refine ⟨?_, ?_, ?_, ?_⟩
  · intro h1 h2 h3
    simp [FileMover.get, h1, h2, h3]
  · intro h1
    simp only [FileMover.get, h1, if_true]
    refine ⟨trivial, ?_⟩
    constructor
    · rintro ⟨m, hm⟩
      by_contra hle
      rw [if_neg hle] at hm
      cases hm
    · intro hpos
      rw [if_pos hpos]
      exact ⟨_, rfl⟩
  · intro h1 h2
    simp only [FileMover.get, h1, Bool.false_eq_true, if_false, h2,
               if_true]
    refine ⟨trivial, ?_⟩
    constructor
    · rintro ⟨m, hm⟩
      by_contra hle
      rw [if_neg hle] at hm
      cases hm
    · intro hpos
      rw [if_pos hpos]
      exact ⟨_, rfl⟩
  · intro h1 h2 h3
    simp only [FileMover.get, h1, h2, h3, Bool.false_eq_true, if_false]
    refine ⟨trivial, ?_⟩
    constructor
    · rintro ⟨m, hm⟩
      by_contra hle
      rw [if_neg hle] at hm
      cases hm
    · intro hpos
      rw [if_pos hpos]
      exact ⟨_, rfl⟩

/-- Witness for C9: a local URL with a nonzero exit environment (no
command runs, so the exit level never matters), and an S3 URL whose
command fails. -/
theorem claim_C9_witness :
    ((FileMover.get none ⟨false, false, true, "/a/f", "/a/f"⟩ "."
        (fun _ => 1)).executed = [] ∧
      (FileMover.get none ⟨false, false, true, "/a/f", "/a/f"⟩ "."
        (fun _ => 1)).result = Except.ok () ∧
      (FileMover.get none ⟨false, false, true, "/a/f", "/a/f"⟩ "."
        (fun _ => 1)).constructed = [["cp", "/a/f", "."]]) ∧
    (∃ m, (FileMover.get none ⟨true, false, false, "s3://b/f", "s3://b/f"⟩
        "." (fun _ => 1)).result = Except.error (PyErr.runtimeError m)) := by
  constructor
  · exact (claim_C9 ⟨false, false, true, "/a/f", "/a/f"⟩ "." none
      (fun _ => 1)).1 rfl rfl rfl
  · exact ((claim_C9 ⟨true, false, false, "s3://b/f", "s3://b/f"⟩ "." none
      (fun _ => 1)).2.1 rfl).2.mpr (by decide)

lemma insertUnique_mem (a x : Int) (l : List Int) :
    a ∈ insertUnique x l ↔ a = x ∨ a ∈ l := by
  induction l with
  | nil => simp [insertUnique]
  | cons y ys ih =>
      by_cases h1 : x < y
      · rw [insertUnique, if_pos h1]
        try simp only [List.mem_cons]
        try tauto
      · by_cases h2 : x = y
        · subst h2
          rw [insertUnique, if_neg h1, if_pos rfl]
          try simp only [List.mem_cons]
          try tauto
        · rw [insertUnique, if_neg h1, if_neg h2]
          try simp only [List.mem_cons, ih]
          try tauto

lemma insertUnique_pairwise (x : Int) (l : List Int)
    (hp : l.Pairwise (· < ·)) :
    (insertUnique x l).Pairwise (· < ·) := by
  induction l with
  | nil => simp [insertUnique]
  | cons y ys ih =>
      rw [List.pairwise_cons] at hp
      obtain ⟨hy, hys⟩ := hp
      by_cases h1 : x < y
      · rw [insertUnique, if_pos h1]
        refine List.pairwise_cons.mpr ⟨?_, List.pairwise_cons.mpr ⟨hy, hys⟩⟩
        intro z hz
        rcases List.mem_cons.mp hz with h | h
        · omega
        · exact lt_trans h1 (hy z h)
      · by_cases h2 : x = y
        · rw [insertUnique, if_neg h1, if_pos h2]
          exact List.pairwise_cons.mpr ⟨hy, hys⟩
        · rw [insertUnique, if_neg h1, if_neg h2]
          refine List.pairwise_cons.mpr ⟨?_, ih hys⟩
          intro z hz
          rcases (insertUnique_mem z x ys).mp hz with h | h
          · omega
          · exact hy z h

lemma sorted_set_mem (a : Int) (l : List Int) :
    a ∈ sorted_set l ↔ a ∈ l := by
  induction l with
  | nil => simp [sorted_set]
  | cons x xs ih =>
      show a ∈ insertUnique x (sorted_set xs) ↔ _
      rw [insertUnique_mem, ih]
      simp

lemma sorted_set_pairwise (l : List Int) :
    (sorted_set l).Pairwise (· < ·) := by
  induction l with
  | nil => simp [sorted_set]
  | cons x xs ih => exact insertUnique_pairwise x _ ih

lemma toDigitsCore_length_le (b : Nat) (fuel : Nat) :
    ∀ (n : Nat) (acc : List Char),
      acc.length ≤ (Nat.toDigitsCore b fuel n acc).length := by
  induction fuel with
  | zero => intro n acc; simp [Nat.toDigitsCore]
  | succ f ih =>
      intro n acc
      show acc.length ≤
        (if n / b = 0 then Nat.digitChar (n % b) :: acc
         else Nat.toDigitsCore b f (n / b)
           (Nat.digitChar (n % b) :: acc)).length
      by_cases hnb : n / b = 0
      · rw [if_pos hnb]; simp
      · rw [if_neg hnb]
        calc acc.length ≤ (Nat.digitChar (n % b) :: acc).length := by simp
          _ ≤ _ := ih _ _

lemma toDigitsCore_length_pos (b : Nat) (fuel n : Nat) (acc : List Char)
    (hf : 0 < fuel) :
    acc.length + 1 ≤ (Nat.toDigitsCore b fuel n acc).length := by
  cases fuel with
  | zero => omega
  | succ f =>
      show acc.length + 1 ≤
        (if n / b = 0 then Nat.digitChar (n % b) :: acc
         else Nat.toDigitsCore b f (n / b)
           (Nat.digitChar (n % b) :: acc)).length
      by_cases hnb : n / b = 0
      · rw [if_pos hnb]; simp
      · rw [if_neg hnb]
        calc acc.length + 1 = (Nat.digitChar (n % b) :: acc).length := by
              simp
          _ ≤ _ := toDigitsCore_length_le b f _ _

lemma nat_repr_ne_empty (n : Nat) : Nat.repr n ≠ "" := by
  intro h
  have hlen : (Nat.repr n).length = 0 := by rw [h]; rfl
  have : (Nat.toDigits 10 n).length = (Nat.repr n).length := rfl
  have hpos := toDigitsCore_length_pos 10 (n + 1) n [] (by omega)
  rw [Nat.toDigits] at this
  omega

lemma int_toString_ne_empty (i : Int) : toString i ≠ "" := by
  cases i with
  | ofNat m => exact nat_repr_ne_empty m
  | negSucc m =>
      show "-" ++ toString (m + 1) ≠ ""
      intro h
      have := congrArg String.length h
      rw [String.length_append] at this
      have h1 : ("-" : String).length = 1 := rfl
      have h2 : ("" : String).length = 0 := rfl
      omega

lemma close_item_eq (last_id : Int) (streak : Nat) :
    close_item last_id streak =
      run_str (last_id - (streak : Int), last_id) := by
  unfold close_item run_str
  dsimp only
  split_ifs <;> first
    | rfl
    | (exfalso; omega)
    | (have hx : last_id - 1 = last_id - (streak : Int) := by omega
       rw [hx])

lemma print_loop_eq (rest : List Int) :
    ∀ (last_id : Int) (streak : Nat) (acc : List String),
      print_loop last_id streak acc rest =
        acc ++ (runsGo (last_id - (streak : Int)) last_id rest).map
          run_str := by
  induction rest with
  | nil =>
      intro last streak acc
      simp [print_loop, runsGo, close_item_eq]
  | cons e rest ih =>
      intro last streak acc
      by_cases he : e = last + 1
      · rw [print_loop, if_pos he, runsGo, if_pos he, ih]
        have harg : e - ((streak + 1 : Nat) : Int) =
            last - (streak : Int) := by
          push_cast
          omega
        rw [harg]
      · rw [print_loop, if_neg he, runsGo, if_neg he, ih]
        simp [close_item_eq]

lemma runsGo_ne_nil (f last : Int) (rest : List Int) :
    runsGo f last rest ≠ [] := by
  induction rest generalizing f last with
  | nil => simp [runsGo]
  | cons e rest ih =>
      by_cases he : e = last + 1
      · rw [runsGo, if_pos he]
        exact ih f e
      · rw [runsGo, if_neg he]
        simp

lemma runsGo_cover (rest : List Int) :
    ∀ (f last : Int), f ≤ last → List.Chain' (· < ·) (last :: rest) →
      ∀ a : Int,
        (∃ r ∈ runsGo f last rest, r.1 ≤ a ∧ a ≤ r.2) ↔
          (f ≤ a ∧ a ≤ last ∨ a ∈ rest) := by
  induction rest with
  | nil =>
      intro f last hfl hc a
      simp [runsGo]
  | cons e rest ih =>
      intro f last hfl hc a
      rw [List.chain'_cons] at hc
      obtain ⟨hle, hc2⟩ := hc
      by_cases he : e = last + 1
      · rw [runsGo, if_pos he, ih f e (by omega) hc2 a]
        simp only [List.mem_cons]
        constructor
        · rintro (⟨ha1, ha2⟩ | h)
          · by_cases hq : a ≤ last
            · exact Or.inl ⟨ha1, hq⟩
            · exact Or.inr (Or.inl (by omega))
          · exact Or.inr (Or.inr h)
        · rintro (⟨ha1, ha2⟩ | h | h)
          · exact Or.inl ⟨ha1, by omega⟩
          · exact Or.inl ⟨by omega, by omega⟩
          · exact Or.inr h
      · rw [runsGo, if_neg he]
        simp only [List.mem_cons, exists_eq_or_imp]
        rw [ih e e le_rfl hc2 a]
        constructor
        · rintro (⟨ha1, ha2⟩ | ⟨ha1, ha2⟩ | h)
          · exact Or.inl ⟨ha1, ha2⟩
          · exact Or.inr (Or.inl (by omega))
          · exact Or.inr (Or.inr h)
        · rintro (⟨ha1, ha2⟩ | h | h)
          · exact Or.inl ⟨ha1, ha2⟩
          · exact Or.inr (Or.inl (by omega))
          · exact Or.inr (Or.inr h)

lemma runsGo_first_le (rest : List Int) :
    ∀ (f last : Int), f ≤ last → List.Chain' (· < ·) (last :: rest) →
      ∀ r ∈ runsGo f last rest, f ≤ r.1 ∧ r.1 ≤ r.2 := by
  induction rest with
  | nil =>
      intro f last hfl _ r hr
      simp only [runsGo, List.mem_singleton] at hr
      subst hr
      exact ⟨le_refl f, hfl⟩
  | cons e rest ih =>
      intro f last hfl hc r hr
      rw [List.chain'_cons] at hc
      obtain ⟨hle, hc2⟩ := hc
      by_cases he : e = last + 1
      · rw [runsGo, if_pos he] at hr
        exact ih f e (by omega) hc2 r hr
      · rw [runsGo, if_neg he] at hr
        rcases List.mem_cons.mp hr with h | h
        · subst h
          exact ⟨le_refl f, hfl⟩
        · obtain ⟨h1, h2⟩ := ih e e le_rfl hc2 r h
          exact ⟨by omega, h2⟩

lemma runsGo_pairwise (rest : List Int) :
    ∀ (f last : Int), f ≤ last → List.Chain' (· < ·) (last :: rest) →
      (runsGo f last rest).Pairwise (fun r s => r.2 < s.1) := by
  induction rest with
  | nil => intro f last _ _; simp [runsGo]
  | cons e rest ih =>
      intro f last hfl hc
      rw [List.chain'_cons] at hc
      obtain ⟨hle, hc2⟩ := hc
      by_cases he : e = last + 1
      · rw [runsGo, if_pos he]
        exact ih f e (by omega) hc2
      · rw [runsGo, if_neg he]
        refine List.pairwise_cons.mpr ⟨?_, ih e e le_rfl hc2⟩
        intro s hs
        obtain ⟨h1, _⟩ := runsGo_first_le rest e e le_rfl hc2 s hs
        show last < s.1
        omega

lemma engine_eq_expected (l : List Int) :
    engine_string_from_list l = expected_engine_string l := by
  unfold engine_string_from_list expected_engine_string
  cases hs : sorted_set l with
  | nil => simp [runs, and_mark, pyJoin]
  | cons x xs =>
      show pyJoin ", " (and_mark (print_loop x 0 [] xs)) =
        pyJoin ", " (and_mark ((runs (x :: xs)).map run_str))
      have hpl := print_loop_eq xs x 0 []
      simp only [Nat.cast_zero, sub_zero, List.nil_append] at hpl
      rw [hpl]
      rfl

lemma and_mark_length (l : List String) : (and_mark l).length = l.length
    := by
  unfold and_mark
  split
  · rename_i h
    simp only [List.length_append, List.length_dropLast,
               List.length_singleton]
    omega
  · rfl

lemma pyJoin_two_ne_empty (a b : String) (t : List String) :
    pyJoin ", " (a :: b :: t) ≠ "" := by
  have hlen : (pyJoin ", " (a :: b :: t)).length =
      a.length + 2 + (pyJoin ", " (b :: t)).length := by
    rw [pyJoin]
    rw [String.length_append, String.length_append]
    rfl
  intro h
  rw [h] at hlen
  have : ("" : String).length = 0 := rfl
  omega

lemma run_str_ne_empty (r : Int × Int) : run_str r ≠ "" := by
  unfold run_str
  split_ifs with h1 h2
  · intro h
    have hl := congrArg String.length h
    rw [String.length_append, String.length_append] at hl
    have : ("-" : String).length = 1 := rfl
    have : ("" : String).length = 0 := rfl
    omega
  · intro h
    have hl := congrArg String.length h
    rw [String.length_append, String.length_append] at hl
    have : (", " : String).length = 2 := rfl
    have : ("" : String).length = 0 := rfl
    omega
  · exact int_toString_ne_empty r.2

lemma engine_string_eq_empty_iff (l : List Int) :
    engine_string_from_list l = "" ↔ l = [] := by
  constructor
  · intro h
    by_contra hne
    obtain ⟨a, ha⟩ := List.exists_mem_of_ne_nil l hne
    have hmem : a ∈ sorted_set l := (sorted_set_mem a l).mpr ha
    rw [engine_eq_expected] at h
    unfold expected_engine_string at h
    cases hs : sorted_set l with
    | nil => rw [hs] at hmem; cases hmem
    | cons x xs =>
        rw [hs] at h
        rw [show runs (x :: xs) = runsGo x x xs from rfl] at h
        cases hr : runsGo x x xs with
        | nil => exact runsGo_ne_nil x x xs hr
        | cons r rs =>
            rw [hr] at h
            cases rs with
            | nil =>
                rw [List.map_singleton] at h
                unfold and_mark at h
                simp only [List.length_singleton] at h
                rw [if_neg (by omega)] at h
                exact run_str_ne_empty r (by simpa [pyJoin] using h)
            | cons r2 rs2 =>
                have hlen : ((and_mark
                    ((r :: r2 :: rs2).map run_str))).length =
                    2 + rs2.length := by
                  rw [and_mark_length]
                  simp
                  omega
                cases hm : and_mark ((r :: r2 :: rs2).map run_str) with
                | nil =>
                    rw [hm] at hlen
                    simp only [List.length_nil] at hlen
                    omega
                | cons c t1 =>
                    cases t1 with
                    | nil =>
                        rw [hm] at hlen
                        simp only [List.length_singleton] at hlen
                        omega
                    | cons d t2 =>
                        rw [hm] at h
                        exact pyJoin_two_ne_empty c d t2 h
  · intro h
    subst h
    rfl

/-- C10.  `engine_string_from_list` returns the empty string exactly for
the empty list; otherwise it deduplicates and sorts the IDs and prints
one item per maximal run of consecutive IDs — `first-last` for runs of
length ≥ 3, `first, last` for length 2, the single ID otherwise — with
the final item prefixed by `and ` when more than one item is printed
(this is `expected_engine_string`).  The runs cover exactly the distinct
input IDs and are pairwise disjoint, so every distinct input ID is
covered by exactly one printed item. -/
theorem claim_C10 (l : List Int) :
    (engine_string_from_list l = "" ↔ l = []) ∧
    engine_string_from_list l = expected_engine_string l ∧
    (∀ a : Int,
      (∃ r ∈ runs (sorted_set l), r.1 ≤ a ∧ a ≤ r.2) ↔ a ∈ l) ∧
    (runs (sorted_set l)).Pairwise (fun r s => r.2 < s.1) := by
  refine ⟨engine_string_eq_empty_iff l, engine_eq_expected l, ?_, ?_⟩
  · intro a
    cases hs : sorted_set l with
    | nil =>
        constructor
        · rintro ⟨r, hr, -⟩
          simp [runs] at hr
        · intro ha
          have := (sorted_set_mem a l).mpr ha
          rw [hs] at this
          cases this
    | cons x xs =>
        have hp := sorted_set_pairwise l
        rw [hs] at hp
        have hchain := hp.chain'
        rw [show runs (x :: xs) = runsGo x x xs from rfl]
        rw [runsGo_cover xs x x le_rfl hchain a]
        rw [← sorted_set_mem a l, hs]
        simp only [List.mem_cons]
        constructor
        · rintro (⟨h1, h2⟩ | h)
          · exact Or.inl (by omega)
          · exact Or.inr h
        · rintro (h | h)
          · exact Or.inl (by omega)
          · exact Or.inr h
  · cases hs : sorted_set l with
    | nil => simp [runs]
    | cons x xs =>
        have hp := sorted_set_pairwise l
        rw [hs] at hp
        exact runsGo_pairwise xs x x le_rfl hp.chain'
